import Mathlib

/-!
# Verification of the SASB permission-request registry

Shallow embedding of `src/permission_request.py` (classes `PermissionStatus`,
`DataSource`, `PermissionRequest`, `PermissionManager`) and proofs of the
specification claims about it.

Modelling conventions:
* Timestamps (`datetime.now(timezone.utc)`) are modelled as natural
  numbers, one explicit parameter per `datetime.now` call, in evaluation
  order.  `create_request` performs three independent samples: one inside
  `_generate_request_id` and one in each of the two dataclass
  `default_factory` lambdas for `created_at` and `updated_at` (so those two
  fields need not be equal).  The `strftime("%Y%m%d%H%M%S")` prefix used by
  `_generate_request_id` is modelled as the decimal rendering of its
  sample, which, like the real prefix, is a nonempty string of decimal
  digits.
* The Python dict `self._requests` is modelled as an association list
  `List (String × PermissionRequest)`; Python dict semantics (update in
  place keeps the insertion position, a fresh key is appended at the end)
  are mirrored by `insertRequest`.
* The durable JSON file is modelled by the `store` field of
  `PermissionManager`: `none` means the file does not exist; `some s`
  means it exists with content `s`.  `StoreData`/`StoredEntry` classify
  file contents by how `json.loads` plus `PermissionRequest.from_dict`
  react to them (see the doc comments there).
* Exceptions are modelled with `Except`; each mutating operation returns
  the resulting manager state alongside the outcome, so that "raises and
  leaves the state unchanged" is expressible.
-/

/-- Python enum `PermissionStatus`. -/
inductive PermissionStatus where
  | PENDING
  | GRANTED
  | DENIED
  | REVOKED
deriving DecidableEq

/-- Python enum `DataSource`. -/
inductive DataSource where
  | WORLD_BANK_API
  | OPENAQ_KAGGLE
  | CUSTOM
deriving DecidableEq

/-- `.value` of `PermissionStatus` members. -/
def PermissionStatus.value : PermissionStatus → String
  | .PENDING => "pending"
  | .GRANTED => "granted"
  | .DENIED => "denied"
  | .REVOKED => "revoked"

/-- `.value` of `DataSource` members. -/
def DataSource.value : DataSource → String
  | .WORLD_BANK_API => "world_bank_api"
  | .OPENAQ_KAGGLE => "openaq_kaggle"
  | .CUSTOM => "custom"

/-- The enum constructor call `PermissionStatus(s)`: looks a member up by its
string value, `none` modelling the `ValueError` raised for unknown values. -/
def PermissionStatus.ofValue (s : String) : Option PermissionStatus :=
  if s = "pending" then some .PENDING
  else if s = "granted" then some .GRANTED
  else if s = "denied" then some .DENIED
  else if s = "revoked" then some .REVOKED
  else none

/-- The enum constructor call `DataSource(s)`: looks a member up by its string
value, `none` modelling the `ValueError` raised for unknown values. -/
def DataSource.ofValue (s : String) : Option DataSource :=
  if s = "world_bank_api" then some .WORLD_BANK_API
  else if s = "openaq_kaggle" then some .OPENAQ_KAGGLE
  else if s = "custom" then some .CUSTOM
  else none

/-- Dataclass `PermissionRequest`.  Field defaults (`status`, the timestamps)
are applied at the single construction site, `create_request`. -/
structure PermissionRequest where
  request_id : String
  requester : String
  data_source : DataSource
  purpose : String
  status : PermissionStatus
  created_at : Nat
  updated_at : Nat
  granted_by : Option String
  notes : Option String
deriving DecidableEq

/-- The dictionary produced by `PermissionRequest.to_dict`: all nine dataclass
fields, with `data_source` and `status` replaced by their string values. -/
structure RequestDict where
  request_id : String
  requester : String
  data_source : String
  purpose : String
  status : String
  created_at : Nat
  updated_at : Nat
  granted_by : Option String
  notes : Option String
deriving DecidableEq

/-- `PermissionRequest.to_dict`. -/
def PermissionRequest.to_dict (r : PermissionRequest) : RequestDict :=
  { request_id := r.request_id
    requester := r.requester
    data_source := r.data_source.value
    purpose := r.purpose
    status := r.status.value
    created_at := r.created_at
    updated_at := r.updated_at
    granted_by := r.granted_by
    notes := r.notes }

/-- `PermissionRequest.from_dict` on a dictionary that has exactly the right
keys: converts the two enum fields, `none` modelling the `ValueError` raised
by the enum constructors on an unrecognized string (caught by `_load`). -/
def PermissionRequest.from_dict (d : RequestDict) : Option PermissionRequest :=
  match DataSource.ofValue d.data_source, PermissionStatus.ofValue d.status with
  | some ds, some st =>
      some { request_id := d.request_id
             requester := d.requester
             data_source := ds
             purpose := d.purpose
             status := st
             created_at := d.created_at
             updated_at := d.updated_at
             granted_by := d.granted_by
             notes := d.notes }
  | _, _ => none

/-- One value of the top-level JSON object in the store, classified by how
`PermissionRequest.from_dict` reacts to it:
* `wellKeyed d`: a JSON object with exactly the nine dataclass keys
  (`from_dict` then either succeeds or raises `ValueError` on a bad enum
  string — caught by `_load`);
* `missingEnumKey`: a JSON object whose `data_source` or `status` key is
  absent, so `data["data_source"]` or `data["status"]` raises `KeyError` —
  caught by `_load`;
* `badShape`: a value that is not a JSON object, or an object whose key set
  differs from the dataclass fields elsewhere, so subscripting or
  `cls(**data)` raises `TypeError` — NOT caught by `_load`. -/
inductive StoredEntry where
  | wellKeyed (d : RequestDict)
  | missingEnumKey
  | badShape
deriving DecidableEq

/-- Content of an existing store file, classified by how `_load` reacts:
* `malformed`: not valid JSON — `json.loads` raises `JSONDecodeError`,
  caught by `_load`;
* `notObject`: valid JSON whose top level is not an object — `data.items()`
  raises `AttributeError`, NOT caught by `_load`;
* `parsed entries`: a JSON object mapping ids to values. -/
inductive StoreData where
  | malformed
  | notObject
  | parsed (entries : List (String × StoredEntry))
deriving DecidableEq

/-- How an exception raised while loading one entry relates to the
`except (json.JSONDecodeError, KeyError, ValueError)` clause of `_load`:
`caught` for `KeyError`/`ValueError`, `uncaught` for `TypeError`. -/
inductive LoadFailure where
  | caught
  | uncaught
deriving DecidableEq

/-- Parsing one stored value inside the dict comprehension of `_load`. -/
def parseEntry : StoredEntry → Except LoadFailure PermissionRequest
  | .wellKeyed d =>
      match PermissionRequest.from_dict d with
      | some r => .ok r
      | none => .error .caught
  | .missingEnumKey => .error .caught
  | .badShape => .error .uncaught

/-- The dict comprehension of `_load`: entries are parsed in order and the
first exception aborts the whole comprehension. -/
def parseEntries : List (String × StoredEntry) →
    Except LoadFailure (List (String × PermissionRequest))
  | [] => .ok []
  | (k, e) :: rest =>
      match parseEntry e with
      | .ok r =>
          match parseEntries rest with
          | .ok rs => .ok ((k, r) :: rs)
          | .error f => .error f
      | .error f => .error f

/-- `PermissionManager._load`, as a function from the store contents to the
in-memory requests map.  A `caught` failure is logged and yields the empty
map; an `uncaught` failure (`TypeError`/`AttributeError`) propagates out of
the constructor, modelled as `Except.error`. -/
def managerLoad : Option StoreData →
    Except LoadFailure (List (String × PermissionRequest))
  | none => .ok []
  | some .malformed => .ok []
  | some .notObject => .error .uncaught
  | some (.parsed entries) =>
      match parseEntries entries with
      | .ok rs => .ok rs
      | .error .caught => .ok []
      | .error .uncaught => .error .uncaught

/-- Class `PermissionManager`: the in-memory map `_requests` (an association
list in Python dict insertion order) together with the durable store the
manager's `storage_path` points at (`none` = the file does not exist). -/
structure PermissionManager where
  requests : List (String × PermissionRequest)
  store : Option StoreData
deriving DecidableEq

/-- `PermissionManager.__init__` over a given store content: `_load` the
store (construction never writes).  `Except.error` models an uncaught
exception escaping the constructor. -/
def mkManager (store : Option StoreData) : Except LoadFailure PermissionManager :=
  match managerLoad store with
  | .ok rs => .ok { requests := rs, store := store }
  | .error f => .error f

/-- A manager built over a nonexistent store file: the empty registry. -/
def emptyManager : PermissionManager := { requests := [], store := none }

/-- Python `self._requests[request_id]` / `request_id in self._requests`:
lookup in the association list (keys are unique in every reachable state). -/
def findRequest : List (String × PermissionRequest) → String →
    Option PermissionRequest
  | [], _ => none
  | (k, r) :: rest, rid => if k = rid then some r else findRequest rest rid

/-- Python `self._requests[request_id] = request`: replace in place if the
key is present (keeping its position), else append at the end. -/
def insertRequest : List (String × PermissionRequest) → String →
    PermissionRequest → List (String × PermissionRequest)
  | [], rid, r => [(rid, r)]
  | (k, q) :: rest, rid, r =>
      if k = rid then (rid, r) :: rest else (k, q) :: insertRequest rest rid r

/-- The serialized form `{k: v.to_dict() for k, v in self._requests.items()}`
written by `_save`. -/
def saveEntries (rs : List (String × PermissionRequest)) :
    List (String × StoredEntry) :=
  rs.map fun kv => (kv.1, .wellKeyed kv.2.to_dict)

/-- `PermissionManager._save`: overwrite the store with the full serialized
state of the given requests map. -/
def savedStore (rs : List (String × PermissionRequest)) : Option StoreData :=
  some (.parsed (saveEntries rs))

/-- The decimal digit character of `n < 10`, as produced by string
formatting of integers. -/
def digitChar (n : Nat) : Char := Char.ofNat (48 + n)

/-- Fuel-driven decimal rendering: structural recursion on the fuel so that
the definition reduces inside the kernel.  Used with fuel `n + 1`, which is
always sufficient since `n / 10 < n` for `n ≥ 10`. -/
def natDigitsGo : Nat → Nat → List Char
  | 0, _ => []
  | fuel + 1, n =>
      if n < 10 then [digitChar n]
      else natDigitsGo fuel (n / 10) ++ [digitChar (n % 10)]

/-- Decimal rendering of a natural number as a list of characters (most
significant digit first, no leading zeros except for `0` itself). -/
def natDigits (n : Nat) : List Char := natDigitsGo (n + 1) n

/-- The rendering does not depend on the fuel, as long as it suffices. -/
theorem natDigitsGo_congr :
    ∀ (fuel₁ fuel₂ n : Nat), n < fuel₁ → n < fuel₂ →
      natDigitsGo fuel₁ n = natDigitsGo fuel₂ n := by
  intro fuel₁
  induction fuel₁ with
  | zero => intro _ _ h1 _; omega
  | succ f ih =>
      intro fuel₂ n h1 h2
      cases fuel₂ with
      | zero => omega
      | succ f2 =>
          by_cases h10 : n < 10
          · simp [natDigitsGo, h10]
          · simp only [natDigitsGo, if_neg h10]
            rw [ih f2 (n / 10) (by omega) (by omega)]

/-- The recursion equation of the decimal rendering. -/
theorem natDigits_eq (n : Nat) :
    natDigits n =
      if n < 10 then [digitChar n]
      else natDigits (n / 10) ++ [digitChar (n % 10)] := by
  show natDigitsGo (n + 1) n = _
  by_cases h10 : n < 10
  · simp [natDigitsGo, h10]
  · simp only [natDigitsGo, if_neg h10]
    rw [natDigitsGo_congr n (n / 10 + 1) (n / 10) (by omega) (by omega)]
    rfl

/-- Python `f"{count:04d}"`: the decimal rendering of `count`, left-padded
with `'0'` to at least four characters. -/
def pad4 (n : Nat) : List Char :=
  let ds := natDigits n
  List.replicate (4 - ds.length) '0' ++ ds

/-- The string `f"PR-{timestamp}-{count:04d}"` built by
`_generate_request_id`, with the timestamp modelled by the natural `t`. -/
def genId (t count : Nat) : String :=
  ⟨'P' :: 'R' :: '-' :: (natDigits t ++ '-' :: pad4 count)⟩

/-- `PermissionManager._generate_request_id` at clock reading `now`:
time-derived prefix plus `len(self._requests) + 1`, zero-padded. -/
def generate_request_id (m : PermissionManager) (now : Nat) : String :=
  genId now (m.requests.length + 1)

/-- The Python statement `if notes: request.notes = notes`: the stored notes
are replaced only when `notes` is truthy, i.e. present and nonempty. -/
def applyNotes (old notes : Option String) : Option String :=
  match notes with
  | some s => if s = "" then old else some s
  | none => old

/-- `PermissionManager.create_request`: generate an id, build a `PENDING`
request, insert it, save.  The construction reads the clock three times, in
this order: `now_id` inside `_generate_request_id`, then `now_created` and
`now_updated` in the two separate `default_factory` lambdas of the
dataclass, which sample `datetime.now` independently — so `created_at` and
`updated_at` are two (typically close but not necessarily equal) clock
readings. -/
def create_request (m : PermissionManager) (requester : String)
    (data_source : DataSource) (purpose : String) (notes : Option String)
    (now_id now_created now_updated : Nat) :
    PermissionRequest × PermissionManager :=
  let request_id := generate_request_id m now_id
  let request : PermissionRequest :=
    { request_id := request_id
      requester := requester
      data_source := data_source
      purpose := purpose
      status := .PENDING
      created_at := now_created
      updated_at := now_updated
      granted_by := none
      notes := notes }
  let requests := insertRequest m.requests request_id request
  (request, { requests := requests, store := savedStore requests })

/-- Exceptions raised by `grant_permission`/`deny_permission`/
`revoke_permission`: `notFound` is the Python `KeyError` for an absent id,
`invalidTransition` the Python `ValueError`, which reports the request's
current status in its message. -/
inductive PermError where
  | notFound (request_id : String)
  | invalidTransition (request_id : String) (current : PermissionStatus)
deriving DecidableEq

/-- `PermissionManager.grant_permission`.  The returned manager is the state
after the call: unchanged when an exception is raised. -/
def grant_permission (m : PermissionManager) (request_id granted_by : String)
    (notes : Option String) (now : Nat) :
    Except PermError PermissionRequest × PermissionManager :=
  match findRequest m.requests request_id with
  | none => (.error (.notFound request_id), m)
  | some request =>
      if request.status ≠ PermissionStatus.PENDING then
        (.error (.invalidTransition request_id request.status), m)
      else
        let request :=
          { request with
            status := .GRANTED
            granted_by := some granted_by
            updated_at := now
            notes := applyNotes request.notes notes }
        let requests := insertRequest m.requests request_id request
        (.ok request, { requests := requests, store := savedStore requests })

/-- `PermissionManager.deny_permission`. -/
def deny_permission (m : PermissionManager) (request_id denied_by : String)
    (notes : Option String) (now : Nat) :
    Except PermError PermissionRequest × PermissionManager :=
  match findRequest m.requests request_id with
  | none => (.error (.notFound request_id), m)
  | some request =>
      if request.status ≠ PermissionStatus.PENDING then
        (.error (.invalidTransition request_id request.status), m)
      else
        let request :=
          { request with
            status := .DENIED
            granted_by := some denied_by
            updated_at := now
            notes := applyNotes request.notes notes }
        let requests := insertRequest m.requests request_id request
        (.ok request, { requests := requests, store := savedStore requests })

/-- `PermissionManager.revoke_permission`. -/
def revoke_permission (m : PermissionManager) (request_id revoked_by : String)
    (notes : Option String) (now : Nat) :
    Except PermError PermissionRequest × PermissionManager :=
  match findRequest m.requests request_id with
  | none => (.error (.notFound request_id), m)
  | some request =>
      if request.status ≠ PermissionStatus.GRANTED then
        (.error (.invalidTransition request_id request.status), m)
      else
        let request :=
          { request with
            status := .REVOKED
            granted_by := some revoked_by
            updated_at := now
            notes := applyNotes request.notes notes }
        let requests := insertRequest m.requests request_id request
        (.ok request, { requests := requests, store := savedStore requests })

/-- `PermissionManager.get_request`: pure lookup, `none` for absent. -/
def get_request (m : PermissionManager) (request_id : String) :
    Option PermissionRequest :=
  findRequest m.requests request_id

/-- `PermissionManager.list_requests` with its three optional filters. -/
def list_requests (m : PermissionManager) (status : Option PermissionStatus)
    (data_source : Option DataSource) (requester : Option String) :
    List PermissionRequest :=
  let results := m.requests.map Prod.snd
  let results := match status with
    | some s => results.filter fun r => r.status = s
    | none => results
  let results := match data_source with
    | some ds => results.filter fun r => r.data_source = ds
    | none => results
  match requester with
  | some q => results.filter fun r => r.requester = q
  | none => results

/-- `PermissionManager.has_permission`. -/
def has_permission (m : PermissionManager) (requester : String)
    (data_source : DataSource) : Bool :=
  m.requests.any fun kv =>
    kv.2.requester = requester ∧ kv.2.data_source = data_source ∧
      kv.2.status = PermissionStatus.GRANTED

/-- `PermissionManager.clear_all`: drop every record and delete the store
file. -/
def clear_all (_m : PermissionManager) : PermissionManager :=
  { requests := [], store := none }

/-- One registry operation together with its arguments and the clock reading
at which it runs. -/
inductive Op where
  | create (requester : String) (data_source : DataSource) (purpose : String)
      (notes : Option String) (now_id now_created now_updated : Nat)
  | grant (request_id granted_by : String) (notes : Option String) (now : Nat)
  | deny (request_id denied_by : String) (notes : Option String) (now : Nat)
  | revoke (request_id revoked_by : String) (notes : Option String) (now : Nat)
  | clearAll

/-- Whether an operation is `clear_all`. -/
def Op.isClear : Op → Bool
  | .clearAll => true
  | _ => false

/-- Run one operation against a manager (exceptions leave the state as the
operation returned it, i.e. unchanged). -/
def applyOp (m : PermissionManager) : Op → PermissionManager
  | .create r ds p n t1 t2 t3 => (create_request m r ds p n t1 t2 t3).2
  | .grant rid a n now => (grant_permission m rid a n now).2
  | .deny rid a n now => (deny_permission m rid a n now).2
  | .revoke rid a n now => (revoke_permission m rid a n now).2
  | .clearAll => clear_all m

/-- Run a sequence of operations. -/
def applyOps (m : PermissionManager) : List Op → PermissionManager
  | [] => m
  | op :: ops => applyOps (applyOp m op) ops

/-- Registry states reachable from a freshly constructed empty registry by
some sequence of operations (`clear_all` included). -/
def Reachable (m : PermissionManager) : Prop :=
  ∃ ops : List Op, applyOps emptyManager ops = m

/-- The request ids returned by the `create` calls of an operation sequence,
in order. -/
def traceIds (m : PermissionManager) : List Op → List String
  | [] => []
  | .create r ds p n t1 t2 t3 :: ops =>
      (create_request m r ds p n t1 t2 t3).1.request_id ::
        traceIds (create_request m r ds p n t1 t2 t3).2 ops
  | op :: ops => traceIds (applyOp m op) ops

/-! ## Arithmetic of the generated request-id strings -/

/-- Decimal digit characters are not the dash separator. -/
theorem digitChar_ne_dash : ∀ n < 10, digitChar n ≠ '-' := by decide

/-- No character of a decimal rendering is the dash separator. -/
theorem natDigits_ne_dash (n : Nat) : ∀ c ∈ natDigits n, c ≠ '-' := by
  induction n using Nat.strong_induction_on with
  | _ n ih =>
    rw [natDigits_eq]
    split
    · intro c hc
      rw [List.mem_singleton] at hc
      subst hc
      exact digitChar_ne_dash n (by assumption)
    · intro c hc
      rw [List.mem_append, List.mem_singleton] at hc
      rcases hc with hc | hc
      · exact ih (n / 10) (Nat.div_lt_self (by omega) (by omega)) c hc
      · subst hc
        exact digitChar_ne_dash (n % 10) (Nat.mod_lt _ (by omega))

/-- One step of reading a decimal digit string back as a number. -/
def digitStep (a : Nat) (c : Char) : Nat := 10 * a + (c.toNat - 48)

/-- The numeric value of a digit string. -/
def charListVal (l : List Char) : Nat := l.foldl digitStep 0

/-- Code point of a decimal digit character. -/
theorem digitChar_toNat : ∀ n < 10, (digitChar n).toNat = 48 + n := by decide

/-- Reading back a decimal rendering recovers the number (with the running
accumulator shifted by the length). -/
theorem foldl_digitStep_natDigits (n : Nat) :
    ∀ a, List.foldl digitStep a (natDigits n) =
      a * 10 ^ (natDigits n).length + n := by
  induction n using Nat.strong_induction_on with
  | _ n ih =>
    intro a
    rw [natDigits_eq]
    split
    · rw [List.foldl_cons, List.foldl_nil, List.length_singleton]
      simp only [digitStep, digitChar_toNat n (by assumption)]
      omega
    · rw [List.foldl_append, ih (n / 10) (Nat.div_lt_self (by omega) (by omega)) a,
        List.length_append, List.foldl_cons, List.foldl_nil, List.length_singleton]
      simp only [digitStep, digitChar_toNat (n % 10) (Nat.mod_lt _ (by omega))]
      have hdm : 10 * (n / 10) + n % 10 = n := Nat.div_add_mod n 10
      calc 10 * (a * 10 ^ (natDigits (n / 10)).length + n / 10) + (48 + n % 10 - 48)
          = a * (10 ^ (natDigits (n / 10)).length * 10) + (10 * (n / 10) + n % 10) := by
            ring_nf
            omega
        _ = a * 10 ^ ((natDigits (n / 10)).length + 1) + n := by
            rw [pow_succ, hdm]

/-- Leading `'0'` padding contributes nothing to the value. -/
theorem foldl_digitStep_replicate_zero (k : Nat) :
    List.foldl digitStep 0 (List.replicate k '0') = 0 := by
  induction k with
  | zero => rfl
  | succ k ih =>
      rw [List.replicate_succ, List.foldl_cons]
      have : digitStep 0 '0' = 0 := by decide
      rw [this, ih]

/-- The value of the zero-padded counter field is the counter. -/
theorem charListVal_pad4 (n : Nat) : charListVal (pad4 n) = n := by
  unfold charListVal pad4
  rw [List.foldl_append, foldl_digitStep_replicate_zero, foldl_digitStep_natDigits]
  omega

/-- Zero-padded counter fields determine the counter. -/
theorem pad4_injective {m n : Nat} (h : pad4 m = pad4 n) : m = n := by
  have hv := congrArg charListVal h
  rwa [charListVal_pad4, charListVal_pad4] at hv

/-- Splitting at a dash separator that occurs in neither prefix. -/
theorem append_dash_inj :
    ∀ (a : List Char) {b : List Char} (a' : List Char) {b' : List Char},
      a ++ '-' :: b = a' ++ '-' :: b' → (∀ c ∈ a, c ≠ '-') →
      (∀ c ∈ a', c ≠ '-') → a = a' ∧ b = b'
  | [], _, [], _, h, _, _ => by
      rw [List.nil_append, List.nil_append, List.cons.injEq] at h
      exact ⟨rfl, h.2⟩
  | [], _, x :: a', _, h, _, ha' => by
      rw [List.nil_append, List.cons_append, List.cons.injEq] at h
      exact absurd h.1.symm (ha' x (List.mem_cons_self x a'))
  | x :: a, _, [], _, h, ha, _ => by
      rw [List.nil_append, List.cons_append, List.cons.injEq] at h
      exact absurd h.1 (ha x (List.mem_cons_self x a))
  | x :: a, _, y :: a', _, h, ha, ha' => by
      rw [List.cons_append, List.cons_append, List.cons.injEq] at h
      have htail := append_dash_inj a a' h.2
        (fun c hc => ha c (List.mem_cons_of_mem x hc))
        (fun c hc => ha' c (List.mem_cons_of_mem y hc))
      exact ⟨by rw [h.1, htail.1], htail.2⟩

/-- Generated ids with distinct sequence counters are distinct strings. -/
theorem genId_count_inj {t c t' c' : Nat} (h : genId t c = genId t' c') :
    c = c' := by
  unfold genId at h
  have h2 := congrArg String.data h
  simp only [List.cons.injEq, true_and] at h2
  exact pad4_injective
    (append_dash_inj (natDigits t) (natDigits t') h2
      (natDigits_ne_dash t) (natDigits_ne_dash t')).2

/-! ## Association-list lemmas mirroring Python dict semantics -/

/-- A lookup hit is a member of the list. -/
theorem mem_of_findRequest :
    ∀ {rs : List (String × PermissionRequest)} {rid : String}
      {r : PermissionRequest}, findRequest rs rid = some r → (rid, r) ∈ rs := by
  intro rs
  induction rs with
  | nil => intro rid r h; exact absurd h (by simp [findRequest])
  | cons kv rest ih =>
      intro rid r h
      rw [findRequest] at h
      split at h
      · injection h with h2
        have hkv : kv = (rid, r) := by
          obtain ⟨k1, v1⟩ := kv
          simp_all
        rw [← hkv]
        exact List.mem_cons_self _ _
      · exact List.mem_cons_of_mem _ (ih h)

/-- Lookup misses exactly when no entry carries the key. -/
theorem findRequest_eq_none_iff {rs : List (String × PermissionRequest)}
    {rid : String} :
    findRequest rs rid = none ↔ ∀ kv ∈ rs, kv.1 ≠ rid := by
  induction rs with
  | nil => simp [findRequest]
  | cons kv rest ih =>
      rw [findRequest]
      split
      · simp_all
      · rw [ih]
        constructor
        · intro h kv' hkv'
          rcases List.mem_cons.mp hkv' with rfl | hkv'
          · assumption
          · exact h kv' hkv'
        · intro h kv' hkv'
          exact h kv' (List.mem_cons_of_mem _ hkv')

/-- In a list whose keys are duplicate-free (as Python dict keys are),
membership determines the lookup result. -/
theorem findRequest_of_mem_nodup :
    ∀ {rs : List (String × PermissionRequest)},
      (rs.map Prod.fst).Nodup → ∀ {rid : String} {r : PermissionRequest},
      (rid, r) ∈ rs → findRequest rs rid = some r := by
  intro rs
  induction rs with
  | nil => intro _ rid r h; exact absurd h (List.not_mem_nil _)
  | cons kv rest ih =>
      intro hnd rid r h
      rw [List.map_cons, List.nodup_cons] at hnd
      rw [findRequest]
      rcases List.mem_cons.mp h with rfl | hmem
      · simp
      · have hne : kv.1 ≠ rid := by
          intro heq
          exact hnd.1 (heq ▸ List.mem_map_of_mem Prod.fst hmem)
        rw [if_neg hne]
        exact ih hnd.2 hmem

/-- Updating a key and looking it up returns the new value. -/
theorem findRequest_insert_self (rs : List (String × PermissionRequest))
    (rid : String) (r : PermissionRequest) :
    findRequest (insertRequest rs rid r) rid = some r := by
  induction rs with
  | nil => simp [insertRequest, findRequest]
  | cons kv rest ih =>
      rw [insertRequest]
      split
      · simp [findRequest]
      · rw [findRequest, if_neg (by assumption)]
        exact ih

/-- Updating one key leaves lookups of other keys unchanged. -/
theorem findRequest_insert_ne (rs : List (String × PermissionRequest))
    {rid rid' : String} (r : PermissionRequest) (h : rid' ≠ rid) :
    findRequest (insertRequest rs rid r) rid' = findRequest rs rid' := by
  induction rs with
  | nil =>
      simp [insertRequest, findRequest, Ne.symm h]
  | cons kv rest ih =>
      by_cases hk : kv.1 = rid
      · have h1 : insertRequest (kv :: rest) rid r = (rid, r) :: rest := by
          rw [insertRequest, if_pos hk]
        have h2 : findRequest ((rid, r) :: rest) rid' = findRequest rest rid' := by
          rw [findRequest, if_neg (fun h' => h h'.symm)]
        have h3 : findRequest (kv :: rest) rid' = findRequest rest rid' := by
          rw [findRequest, if_neg (fun h' => h (h'.symm.trans hk))]
        rw [h1, h2, h3]
      · have h1 : insertRequest (kv :: rest) rid r =
            kv :: insertRequest rest rid r := by
          rw [insertRequest, if_neg hk]
        rw [h1, findRequest, findRequest]
        by_cases hk' : kv.1 = rid'
        · rw [if_pos hk', if_pos hk']
        · rw [if_neg hk', if_neg hk']
          exact ih

/-- The updated entry is present after the update. -/
theorem insertRequest_self_mem (rs : List (String × PermissionRequest))
    (rid : String) (r : PermissionRequest) :
    (rid, r) ∈ insertRequest rs rid r := by
  induction rs with
  | nil => simp [insertRequest]
  | cons kv rest ih =>
      rw [insertRequest]
      split
      · exact List.mem_cons_self _ _
      · exact List.mem_cons_of_mem _ ih

/-- Every entry after an update is an old entry or the updated one. -/
theorem mem_insertRequest {rs : List (String × PermissionRequest)}
    {rid : String} {r : PermissionRequest} {kv : String × PermissionRequest}
    (h : kv ∈ insertRequest rs rid r) : kv ∈ rs ∨ kv = (rid, r) := by
  induction rs with
  | nil => simp [insertRequest] at h; exact Or.inr h
  | cons kv' rest ih =>
      rw [insertRequest] at h
      split at h
      · rcases List.mem_cons.mp h with rfl | hmem
        · exact Or.inr rfl
        · exact Or.inl (List.mem_cons_of_mem _ hmem)
      · rcases List.mem_cons.mp h with rfl | hmem
        · exact Or.inl (List.mem_cons_self _ _)
        · rcases ih hmem with hmem | rfl
          · exact Or.inl (List.mem_cons_of_mem _ hmem)
          · exact Or.inr rfl

/-- Updating never shrinks the map. -/
theorem length_le_insertRequest (rs : List (String × PermissionRequest))
    (rid : String) (r : PermissionRequest) :
    rs.length ≤ (insertRequest rs rid r).length := by
  induction rs with
  | nil => simp [insertRequest]
  | cons kv rest ih =>
      rw [insertRequest]
      split
      · simp
      · simpa using ih

/-- Updating an existing key keeps the size. -/
theorem length_insertRequest_of_found
    {rs : List (String × PermissionRequest)} {rid : String}
    {q : PermissionRequest} (h : findRequest rs rid = some q)
    (r : PermissionRequest) :
    (insertRequest rs rid r).length = rs.length := by
  induction rs with
  | nil => exact absurd h (by simp [findRequest])
  | cons kv rest ih =>
      rw [findRequest] at h
      rw [insertRequest]
      split
      · simp
      · rw [if_neg (by assumption)] at h
        simp [ih h]

/-- Inserting a fresh key appends it: the size grows by one. -/
theorem length_insertRequest_of_none
    {rs : List (String × PermissionRequest)} {rid : String}
    (h : findRequest rs rid = none) (r : PermissionRequest) :
    (insertRequest rs rid r).length = rs.length + 1 := by
  induction rs with
  | nil => simp [insertRequest]
  | cons kv rest ih =>
      rw [findRequest] at h
      rw [insertRequest]
      split at h
      · exact absurd h (by simp)
      · rw [if_neg (by assumption)]
        simp [ih h]

/-- Updating an existing key keeps the key column of the map. -/
theorem keys_insertRequest_of_found
    {rs : List (String × PermissionRequest)} {rid : String}
    {q : PermissionRequest} (h : findRequest rs rid = some q)
    (r : PermissionRequest) :
    (insertRequest rs rid r).map Prod.fst = rs.map Prod.fst := by
  induction rs with
  | nil => exact absurd h (by simp [findRequest])
  | cons kv rest ih =>
      rw [findRequest] at h
      rw [insertRequest]
      split at h
      · rw [if_pos (by assumption), List.map_cons, List.map_cons]
        simp_all
      · rw [if_neg (by assumption), List.map_cons, List.map_cons, ih h]

/-! ## Characterizations of the three transition operations -/

/-- The record produced by the mutation block of `grant_permission`. -/
def grantUpdate (req : PermissionRequest) (granted_by : String)
    (notes : Option String) (now : Nat) : PermissionRequest :=
  { req with
    status := .GRANTED
    granted_by := some granted_by
    updated_at := now
    notes := applyNotes req.notes notes }

/-- The record produced by the mutation block of `deny_permission`. -/
def denyUpdate (req : PermissionRequest) (denied_by : String)
    (notes : Option String) (now : Nat) : PermissionRequest :=
  { req with
    status := .DENIED
    granted_by := some denied_by
    updated_at := now
    notes := applyNotes req.notes notes }

/-- The record produced by the mutation block of `revoke_permission`. -/
def revokeUpdate (req : PermissionRequest) (revoked_by : String)
    (notes : Option String) (now : Nat) : PermissionRequest :=
  { req with
    status := .REVOKED
    granted_by := some revoked_by
    updated_at := now
    notes := applyNotes req.notes notes }

theorem grant_permission_of_none {m : PermissionManager} {rid : String}
    (a : String) (notes : Option String) (now : Nat)
    (hf : findRequest m.requests rid = none) :
    grant_permission m rid a notes now = (.error (.notFound rid), m) := by
  unfold grant_permission
  rw [hf]

theorem grant_permission_of_bad {m : PermissionManager} {rid : String}
    {req : PermissionRequest} (a : String) (notes : Option String) (now : Nat)
    (hf : findRequest m.requests rid = some req)
    (hst : req.status ≠ PermissionStatus.PENDING) :
    grant_permission m rid a notes now =
      (.error (.invalidTransition rid req.status), m) := by
  unfold grant_permission
  rw [hf]
  simp [hst]

theorem grant_permission_of_ok {m : PermissionManager} {rid : String}
    {req : PermissionRequest} (a : String) (notes : Option String) (now : Nat)
    (hf : findRequest m.requests rid = some req)
    (hst : req.status = PermissionStatus.PENDING) :
    grant_permission m rid a notes now =
      (.ok (grantUpdate req a notes now),
        { requests := insertRequest m.requests rid (grantUpdate req a notes now)
          store :=
            savedStore (insertRequest m.requests rid (grantUpdate req a notes now)) }) := by
  unfold grant_permission
  rw [hf]
  simp [hst, grantUpdate]

theorem deny_permission_of_none {m : PermissionManager} {rid : String}
    (a : String) (notes : Option String) (now : Nat)
    (hf : findRequest m.requests rid = none) :
    deny_permission m rid a notes now = (.error (.notFound rid), m) := by
  unfold deny_permission
  rw [hf]

theorem deny_permission_of_bad {m : PermissionManager} {rid : String}
    {req : PermissionRequest} (a : String) (notes : Option String) (now : Nat)
    (hf : findRequest m.requests rid = some req)
    (hst : req.status ≠ PermissionStatus.PENDING) :
    deny_permission m rid a notes now =
      (.error (.invalidTransition rid req.status), m) := by
  unfold deny_permission
  rw [hf]
  simp [hst]

theorem deny_permission_of_ok {m : PermissionManager} {rid : String}
    {req : PermissionRequest} (a : String) (notes : Option String) (now : Nat)
    (hf : findRequest m.requests rid = some req)
    (hst : req.status = PermissionStatus.PENDING) :
    deny_permission m rid a notes now =
      (.ok (denyUpdate req a notes now),
        { requests := insertRequest m.requests rid (denyUpdate req a notes now)
          store :=
            savedStore (insertRequest m.requests rid (denyUpdate req a notes now)) }) := by
  unfold deny_permission
  rw [hf]
  simp [hst, denyUpdate]

theorem revoke_permission_of_none {m : PermissionManager} {rid : String}
    (a : String) (notes : Option String) (now : Nat)
    (hf : findRequest m.requests rid = none) :
    revoke_permission m rid a notes now = (.error (.notFound rid), m) := by
  unfold revoke_permission
  rw [hf]

theorem revoke_permission_of_bad {m : PermissionManager} {rid : String}
    {req : PermissionRequest} (a : String) (notes : Option String) (now : Nat)
    (hf : findRequest m.requests rid = some req)
    (hst : req.status ≠ PermissionStatus.GRANTED) :
    revoke_permission m rid a notes now =
      (.error (.invalidTransition rid req.status), m) := by
  unfold revoke_permission
  rw [hf]
  simp [hst]

theorem revoke_permission_of_ok {m : PermissionManager} {rid : String}
    {req : PermissionRequest} (a : String) (notes : Option String) (now : Nat)
    (hf : findRequest m.requests rid = some req)
    (hst : req.status = PermissionStatus.GRANTED) :
    revoke_permission m rid a notes now =
      (.ok (revokeUpdate req a notes now),
        { requests := insertRequest m.requests rid (revokeUpdate req a notes now)
          store :=
            savedStore (insertRequest m.requests rid (revokeUpdate req a notes now)) }) := by
  unfold revoke_permission
  rw [hf]
  simp [hst, revokeUpdate]

/-! ## Invariants of reachable registry states -/

/-- Every stored key is a generated id whose sequence counter lies between 1
and the current size of the map.  This holds in every state the registry can
reach from empty and is what makes freshly generated ids collision-free
against the current contents. -/
def GoodIds (rs : List (String × PermissionRequest)) : Prop :=
  ∀ kv ∈ rs, ∃ t c, kv.1 = genId t c ∧ 1 ≤ c ∧ c ≤ rs.length

/-- Under `GoodIds`, the id generated next is absent from the map. -/
theorem goodIds_fresh {rs : List (String × PermissionRequest)}
    (h : GoodIds rs) (now : Nat) :
    findRequest rs (genId now (rs.length + 1)) = none := by
  rw [findRequest_eq_none_iff]
  intro kv hkv heq
  obtain ⟨t, c, hk, h1, h2⟩ := h kv hkv
  have heq2 : genId t c = genId now (rs.length + 1) := hk.symm.trans heq
  have := genId_count_inj heq2
  omega

/-- Inserting the freshly generated id preserves `GoodIds`. -/
theorem goodIds_insert_fresh {rs : List (String × PermissionRequest)}
    (h : GoodIds rs) (now : Nat) (r : PermissionRequest) :
    GoodIds (insertRequest rs (genId now (rs.length + 1)) r) := by
  have hlen := length_insertRequest_of_none (goodIds_fresh h now) r
  intro kv hkv
  rcases mem_insertRequest hkv with hm | rfl
  · obtain ⟨t, c, hk, h1, h2⟩ := h kv hm
    exact ⟨t, c, hk, h1, by omega⟩
  · exact ⟨now, rs.length + 1, rfl, by omega, by omega⟩

/-- Updating an existing key preserves `GoodIds`. -/
theorem goodIds_insert_found {rs : List (String × PermissionRequest)}
    {rid : String} {q : PermissionRequest} (h : GoodIds rs)
    (hf : findRequest rs rid = some q) (r : PermissionRequest) :
    GoodIds (insertRequest rs rid r) := by
  have hlen := length_insertRequest_of_found hf r
  intro kv hkv
  rcases mem_insertRequest hkv with hm | rfl
  · obtain ⟨t, c, hk, h1, h2⟩ := h kv hm
    exact ⟨t, c, hk, h1, by omega⟩
  · obtain ⟨t, c, hk, h1, h2⟩ := h (rid, q) (mem_of_findRequest hf)
    exact ⟨t, c, hk, h1, by omega⟩

/-- Every single operation preserves `GoodIds`. -/
theorem goodIds_applyOp {m : PermissionManager} (h : GoodIds m.requests)
    (op : Op) : GoodIds (applyOp m op).requests := by
  cases op with
  | create requester ds purpose notes tid tc tu =>
      show GoodIds
        (create_request m requester ds purpose notes tid tc tu).2.requests
      unfold create_request generate_request_id
      exact goodIds_insert_fresh h tid _
  | grant rid a notes now =>
      show GoodIds (grant_permission m rid a notes now).2.requests
      cases hf : findRequest m.requests rid with
      | none => rw [grant_permission_of_none a notes now hf]; exact h
      | some req =>
          by_cases hst : req.status = PermissionStatus.PENDING
          · rw [grant_permission_of_ok a notes now hf hst]
            exact goodIds_insert_found h hf _
          · rw [grant_permission_of_bad a notes now hf hst]; exact h
  | deny rid a notes now =>
      show GoodIds (deny_permission m rid a notes now).2.requests
      cases hf : findRequest m.requests rid with
      | none => rw [deny_permission_of_none a notes now hf]; exact h
      | some req =>
          by_cases hst : req.status = PermissionStatus.PENDING
          · rw [deny_permission_of_ok a notes now hf hst]
            exact goodIds_insert_found h hf _
          · rw [deny_permission_of_bad a notes now hf hst]; exact h
  | revoke rid a notes now =>
      show GoodIds (revoke_permission m rid a notes now).2.requests
      cases hf : findRequest m.requests rid with
      | none => rw [revoke_permission_of_none a notes now hf]; exact h
      | some req =>
          by_cases hst : req.status = PermissionStatus.GRANTED
          · rw [revoke_permission_of_ok a notes now hf hst]
            exact goodIds_insert_found h hf _
          · rw [revoke_permission_of_bad a notes now hf hst]; exact h
  | clearAll =>
      intro kv hkv
      exact absurd hkv (List.not_mem_nil kv)

/-- Operation sequences preserve `GoodIds`. -/
theorem goodIds_applyOps {m : PermissionManager} (h : GoodIds m.requests)
    (ops : List Op) : GoodIds (applyOps m ops).requests := by
  induction ops generalizing m with
  | nil => exact h
  | cons op ops ih => exact ih (goodIds_applyOp h op)

/-- Every reachable registry state satisfies `GoodIds`. -/
theorem reachable_goodIds {m : PermissionManager} (h : Reachable m) :
    GoodIds m.requests := by
  obtain ⟨ops, rfl⟩ := h
  exact goodIds_applyOps (fun kv hkv => absurd hkv (List.not_mem_nil kv)) ops

/-- No operation shrinks the map, except `clear_all`. -/
theorem length_le_applyOp {m : PermissionManager} {op : Op}
    (hop : op.isClear = false) :
    m.requests.length ≤ (applyOp m op).requests.length := by
  cases op with
  | create requester ds purpose notes tid tc tu =>
      show m.requests.length ≤
        (create_request m requester ds purpose notes tid tc tu).2.requests.length
      unfold create_request
      exact length_le_insertRequest _ _ _
  | grant rid a notes now =>
      show m.requests.length ≤ (grant_permission m rid a notes now).2.requests.length
      cases hf : findRequest m.requests rid with
      | none => rw [grant_permission_of_none a notes now hf]
      | some req =>
          by_cases hst : req.status = PermissionStatus.PENDING
          · rw [grant_permission_of_ok a notes now hf hst]
            exact length_le_insertRequest _ _ _
          · rw [grant_permission_of_bad a notes now hf hst]
  | deny rid a notes now =>
      show m.requests.length ≤ (deny_permission m rid a notes now).2.requests.length
      cases hf : findRequest m.requests rid with
      | none => rw [deny_permission_of_none a notes now hf]
      | some req =>
          by_cases hst : req.status = PermissionStatus.PENDING
          · rw [deny_permission_of_ok a notes now hf hst]
            exact length_le_insertRequest _ _ _
          · rw [deny_permission_of_bad a notes now hf hst]
  | revoke rid a notes now =>
      show m.requests.length ≤ (revoke_permission m rid a notes now).2.requests.length
      cases hf : findRequest m.requests rid with
      | none => rw [revoke_permission_of_none a notes now hf]
      | some req =>
          by_cases hst : req.status = PermissionStatus.GRANTED
          · rw [revoke_permission_of_ok a notes now hf hst]
            exact length_le_insertRequest _ _ _
          · rw [revoke_permission_of_bad a notes now hf hst]
  | clearAll => cases hop

/-- `granted_by` is `none` exactly on `PENDING` requests: the invariant
behind claim C10. -/
def ActorInv (rs : List (String × PermissionRequest)) : Prop :=
  ∀ kv ∈ rs, (kv.2.granted_by = none ↔ kv.2.status = PermissionStatus.PENDING)

/-- Every single operation preserves `ActorInv`. -/
theorem actorInv_applyOp {m : PermissionManager} (h : ActorInv m.requests)
    (op : Op) : ActorInv (applyOp m op).requests := by
  cases op with
  | create requester ds purpose notes tid tc tu =>
      show ActorInv
        (create_request m requester ds purpose notes tid tc tu).2.requests
      unfold create_request
      intro kv hkv
      rcases mem_insertRequest hkv with hm | rfl
      · exact h kv hm
      · simp
  | grant rid a notes now =>
      show ActorInv (grant_permission m rid a notes now).2.requests
      cases hf : findRequest m.requests rid with
      | none => rw [grant_permission_of_none a notes now hf]; exact h
      | some req =>
          by_cases hst : req.status = PermissionStatus.PENDING
          · rw [grant_permission_of_ok a notes now hf hst]
            intro kv hkv
            rcases mem_insertRequest hkv with hm | rfl
            · exact h kv hm
            · simp [grantUpdate]
          · rw [grant_permission_of_bad a notes now hf hst]; exact h
  | deny rid a notes now =>
      show ActorInv (deny_permission m rid a notes now).2.requests
      cases hf : findRequest m.requests rid with
      | none => rw [deny_permission_of_none a notes now hf]; exact h
      | some req =>
          by_cases hst : req.status = PermissionStatus.PENDING
          · rw [deny_permission_of_ok a notes now hf hst]
            intro kv hkv
            rcases mem_insertRequest hkv with hm | rfl
            · exact h kv hm
            · simp [denyUpdate]
          · rw [deny_permission_of_bad a notes now hf hst]; exact h
  | revoke rid a notes now =>
      show ActorInv (revoke_permission m rid a notes now).2.requests
      cases hf : findRequest m.requests rid with
      | none => rw [revoke_permission_of_none a notes now hf]; exact h
      | some req =>
          by_cases hst : req.status = PermissionStatus.GRANTED
          · rw [revoke_permission_of_ok a notes now hf hst]
            intro kv hkv
            rcases mem_insertRequest hkv with hm | rfl
            · exact h kv hm
            · simp [revokeUpdate]
          · rw [revoke_permission_of_bad a notes now hf hst]; exact h
  | clearAll =>
      intro kv hkv
      exact absurd hkv (List.not_mem_nil kv)

/-- Operation sequences preserve `ActorInv`. -/
theorem actorInv_applyOps {m : PermissionManager} (h : ActorInv m.requests)
    (ops : List Op) : ActorInv (applyOps m ops).requests := by
  induction ops generalizing m with
  | nil => exact h
  | cons op ops ih => exact ih (actorInv_applyOp h op)

/-- A `DENIED` or `REVOKED` entry survives any single operation other than
`clear_all` bit-for-bit: the freshly generated id of a `create` cannot hit
it (by `GoodIds`), and the three transitions refuse to touch it. -/
theorem terminal_preserved_applyOp {m : PermissionManager} {rid : String}
    {req : PermissionRequest} (hg : GoodIds m.requests)
    (hf : findRequest m.requests rid = some req)
    (ht : req.status = PermissionStatus.DENIED ∨
          req.status = PermissionStatus.REVOKED)
    {op : Op} (hop : op.isClear = false) :
    findRequest (applyOp m op).requests rid = some req := by
  cases op with
  | create requester ds purpose notes tid tc tu =>
      show findRequest
        (create_request m requester ds purpose notes tid tc tu).2.requests rid =
          some req
      unfold create_request generate_request_id
      have hne : rid ≠ genId tid (m.requests.length + 1) := by
        intro he
        rw [he, goodIds_fresh hg tid] at hf
        cases hf
      rw [findRequest_insert_ne _ _ hne]
      exact hf
  | grant rid' a notes now =>
      show findRequest (grant_permission m rid' a notes now).2.requests rid = some req
      cases hf' : findRequest m.requests rid' with
      | none => rw [grant_permission_of_none a notes now hf']; exact hf
      | some req' =>
          by_cases hst : req'.status = PermissionStatus.PENDING
          · rw [grant_permission_of_ok a notes now hf' hst]
            have hne : rid ≠ rid' := by
              intro he
              rw [he, hf'] at hf
              injection hf with hf
              rw [hf] at hst
              rcases ht with ht | ht <;> rw [ht] at hst <;> cases hst
            rw [findRequest_insert_ne _ _ hne]
            exact hf
          · rw [grant_permission_of_bad a notes now hf' hst]; exact hf
  | deny rid' a notes now =>
      show findRequest (deny_permission m rid' a notes now).2.requests rid = some req
      cases hf' : findRequest m.requests rid' with
      | none => rw [deny_permission_of_none a notes now hf']; exact hf
      | some req' =>
          by_cases hst : req'.status = PermissionStatus.PENDING
          · rw [deny_permission_of_ok a notes now hf' hst]
            have hne : rid ≠ rid' := by
              intro he
              rw [he, hf'] at hf
              injection hf with hf
              rw [hf] at hst
              rcases ht with ht | ht <;> rw [ht] at hst <;> cases hst
            rw [findRequest_insert_ne _ _ hne]
            exact hf
          · rw [deny_permission_of_bad a notes now hf' hst]; exact hf
  | revoke rid' a notes now =>
      show findRequest (revoke_permission m rid' a notes now).2.requests rid = some req
      cases hf' : findRequest m.requests rid' with
      | none => rw [revoke_permission_of_none a notes now hf']; exact hf
      | some req' =>
          by_cases hst : req'.status = PermissionStatus.GRANTED
          · rw [revoke_permission_of_ok a notes now hf' hst]
            have hne : rid ≠ rid' := by
              intro he
              rw [he, hf'] at hf
              injection hf with hf
              rw [hf] at hst
              rcases ht with ht | ht <;> rw [ht] at hst <;> cases hst
            rw [findRequest_insert_ne _ _ hne]
            exact hf
          · rw [revoke_permission_of_bad a notes now hf' hst]; exact hf
  | clearAll => cases hop

/-- A `DENIED` or `REVOKED` entry survives any `clear_all`-free operation
sequence bit-for-bit. -/
theorem terminal_preserved_applyOps {m : PermissionManager} {rid : String}
    {req : PermissionRequest} (hg : GoodIds m.requests)
    (hf : findRequest m.requests rid = some req)
    (ht : req.status = PermissionStatus.DENIED ∨
          req.status = PermissionStatus.REVOKED)
    (ops : List Op) (hcl : ∀ op ∈ ops, op.isClear = false) :
    findRequest (applyOps m ops).requests rid = some req := by
  induction ops generalizing m with
  | nil => exact hf
  | cons op ops ih =>
      exact ih (goodIds_applyOp hg op)
        (terminal_preserved_applyOp hg hf ht (hcl op (List.mem_cons_self op ops)))
        (fun op' h' => hcl op' (List.mem_cons_of_mem op h'))

/-- Under `GoodIds`, `create` appends a fresh entry: the map grows by one. -/
theorem create_request_length {m : PermissionManager} (hg : GoodIds m.requests)
    (requester : String) (ds : DataSource) (purpose : String)
    (notes : Option String) (now_id now_created now_updated : Nat) :
    (create_request m requester ds purpose notes
      now_id now_created now_updated).2.requests.length =
      m.requests.length + 1 := by
  unfold create_request generate_request_id
  exact length_insertRequest_of_none (goodIds_fresh hg now_id) _

/-- All ids returned by the `create` calls of a `clear_all`-free operation
sequence are distinct, given that every id remembered in `past` is a
generated id whose counter is within the current map size. -/
theorem traceIds_nodup_aux :
    ∀ (ops : List Op) (m : PermissionManager) (past : List String),
      (∀ op ∈ ops, op.isClear = false) → GoodIds m.requests →
      (∀ id ∈ past, ∃ t c, id = genId t c ∧ 1 ≤ c ∧ c ≤ m.requests.length) →
      past.Nodup → (past ++ traceIds m ops).Nodup := by
  intro ops
  induction ops with
  | nil =>
      intro m past _ _ _ hnd
      rw [traceIds]
      simpa using hnd
  | cons op ops ih =>
      intro m past hcl hg hpast hnd
      cases op with
      | create requester ds purpose notes tid tc tu =>
          rw [traceIds]
          show (past ++ genId tid (m.requests.length + 1) ::
            traceIds (create_request m requester ds purpose notes
              tid tc tu).2 ops).Nodup
          have hnotin : genId tid (m.requests.length + 1) ∉ past := by
            intro hmem
            obtain ⟨t, c, hk, h1, h2⟩ := hpast _ hmem
            have := genId_count_inj hk
            omega
          have hnd' : (past ++ [genId tid (m.requests.length + 1)]).Nodup := by
            rw [List.nodup_append]
            refine ⟨hnd, List.nodup_singleton _, ?_⟩
            intro x hx hx'
            rw [List.mem_singleton] at hx'
            subst hx'
            exact hnotin hx
          have hbound' : ∀ id ∈ past ++ [genId tid (m.requests.length + 1)],
              ∃ t c, id = genId t c ∧ 1 ≤ c ∧
                c ≤ (create_request m requester ds purpose notes
                  tid tc tu).2.requests.length := by
            intro id hid
            rw [create_request_length hg requester ds purpose notes tid tc tu]
            rcases List.mem_append.mp hid with hid | hid
            · obtain ⟨t, c, hk, h1, h2⟩ := hpast id hid
              exact ⟨t, c, hk, h1, by omega⟩
            · rw [List.mem_singleton] at hid
              subst hid
              exact ⟨tid, m.requests.length + 1, rfl, by omega, by omega⟩
          have hres := ih (create_request m requester ds purpose notes tid tc tu).2
            (past ++ [genId tid (m.requests.length + 1)])
            (fun op' h' => hcl op' (List.mem_cons_of_mem _ h'))
            (goodIds_applyOp hg (Op.create requester ds purpose notes tid tc tu))
            hbound' hnd'
          rw [List.append_cons]
          exact hres
      | grant rid a notes now =>
          rw [traceIds]
          refine ih _ past (fun op' h' => hcl op' (List.mem_cons_of_mem _ h'))
            (goodIds_applyOp hg _) ?_ hnd
          intro id hid
          obtain ⟨t, c, hk, h1, h2⟩ := hpast id hid
          have hle := @length_le_applyOp m (Op.grant rid a notes now) rfl
          exact ⟨t, c, hk, h1, by omega⟩
          exact fun r ds p n t1 t2 t3 h' => Op.noConfusion h'
      | deny rid a notes now =>
          rw [traceIds]
          refine ih _ past (fun op' h' => hcl op' (List.mem_cons_of_mem _ h'))
            (goodIds_applyOp hg _) ?_ hnd
          intro id hid
          obtain ⟨t, c, hk, h1, h2⟩ := hpast id hid
          have hle := @length_le_applyOp m (Op.deny rid a notes now) rfl
          exact ⟨t, c, hk, h1, by omega⟩
          exact fun r ds p n t1 t2 t3 h' => Op.noConfusion h'
      | revoke rid a notes now =>
          rw [traceIds]
          refine ih _ past (fun op' h' => hcl op' (List.mem_cons_of_mem _ h'))
            (goodIds_applyOp hg _) ?_ hnd
          intro id hid
          obtain ⟨t, c, hk, h1, h2⟩ := hpast id hid
          have hle := @length_le_applyOp m (Op.revoke rid a notes now) rfl
          exact ⟨t, c, hk, h1, by omega⟩
          exact fun r ds p n t1 t2 t3 h' => Op.noConfusion h'
      | clearAll =>
          exact absurd (hcl Op.clearAll (List.mem_cons_self _ _)) (by simp [Op.isClear])

/-! ## Concrete sample states used by the witnesses -/

/-- One `create` on an empty registry at time 1. -/
def sampleMgr1 : PermissionManager :=
  (create_request emptyManager "alice" DataSource.WORLD_BANK_API "research"
    none 1 1 1).2

/-- The pending request stored in `sampleMgr1`. -/
def samplePendingReq : PermissionRequest :=
  { request_id := "PR-1-0001"
    requester := "alice"
    data_source := DataSource.WORLD_BANK_API
    purpose := "research"
    status := PermissionStatus.PENDING
    created_at := 1
    updated_at := 1
    granted_by := none
    notes := none }

/-- `sampleMgr1` after granting its request at time 2. -/
def sampleMgr2 : PermissionManager :=
  (grant_permission sampleMgr1 "PR-1-0001" "admin" none 2).2

/-- The granted request stored in `sampleMgr2`. -/
def sampleGrantedReq : PermissionRequest :=
  { samplePendingReq with
    status := PermissionStatus.GRANTED
    updated_at := 2
    granted_by := some "admin" }

/-! ## The specification claims -/

/-- C1: for every registry state and request id, `grant`, `deny` and `revoke`
raise the not-found `KeyError` iff the id is absent; if the id is present
they raise the invalid-transition `ValueError` reporting the request's
current status iff that status differs from the operation's required source
status (`PENDING` for grant/deny, `GRANTED` for revoke); and whenever any of
the three fails, the in-memory state and the durable store (both fields of
the returned manager) are unchanged. -/
theorem transition_errors_iff (m : PermissionManager) (rid actor : String)
    (notes : Option String) (now : Nat) :
    (((grant_permission m rid actor notes now).1 = .error (.notFound rid) ↔
        findRequest m.requests rid = none) ∧
      (∀ req, findRequest m.requests rid = some req →
        ((grant_permission m rid actor notes now).1 =
            .error (.invalidTransition rid req.status) ↔
          req.status ≠ PermissionStatus.PENDING)) ∧
      (∀ e, (grant_permission m rid actor notes now).1 = .error e →
        (grant_permission m rid actor notes now).2 = m)) ∧
    (((deny_permission m rid actor notes now).1 = .error (.notFound rid) ↔
        findRequest m.requests rid = none) ∧
      (∀ req, findRequest m.requests rid = some req →
        ((deny_permission m rid actor notes now).1 =
            .error (.invalidTransition rid req.status) ↔
          req.status ≠ PermissionStatus.PENDING)) ∧
      (∀ e, (deny_permission m rid actor notes now).1 = .error e →
        (deny_permission m rid actor notes now).2 = m)) ∧
    (((revoke_permission m rid actor notes now).1 = .error (.notFound rid) ↔
        findRequest m.requests rid = none) ∧
      (∀ req, findRequest m.requests rid = some req →
        ((revoke_permission m rid actor notes now).1 =
            .error (.invalidTransition rid req.status) ↔
          req.status ≠ PermissionStatus.GRANTED)) ∧
      (∀ e, (revoke_permission m rid actor notes now).1 = .error e →
        (revoke_permission m rid actor notes now).2 = m)) := by
  refine ⟨⟨?_, ?_, ?_⟩, ⟨?_, ?_, ?_⟩, ⟨?_, ?_, ?_⟩⟩
  · cases hf : findRequest m.requests rid with
    | none => rw [grant_permission_of_none actor notes now hf]; simp
    | some req =>
        by_cases hst : req.status = PermissionStatus.PENDING
        · rw [grant_permission_of_ok actor notes now hf hst]; simp
        · rw [grant_permission_of_bad actor notes now hf hst]; simp
  · intro req hf
    by_cases hst : req.status = PermissionStatus.PENDING
    · rw [grant_permission_of_ok actor notes now hf hst]; simp [hst]
    · rw [grant_permission_of_bad actor notes now hf hst]; simp [hst]
  · intro e he
    cases hf : findRequest m.requests rid with
    | none => rw [grant_permission_of_none actor notes now hf]
    | some req =>
        by_cases hst : req.status = PermissionStatus.PENDING
        · rw [grant_permission_of_ok actor notes now hf hst] at he
          simp at he
        · rw [grant_permission_of_bad actor notes now hf hst]
  · cases hf : findRequest m.requests rid with
    | none => rw [deny_permission_of_none actor notes now hf]; simp
    | some req =>
        by_cases hst : req.status = PermissionStatus.PENDING
        · rw [deny_permission_of_ok actor notes now hf hst]; simp
        · rw [deny_permission_of_bad actor notes now hf hst]; simp
  · intro req hf
    by_cases hst : req.status = PermissionStatus.PENDING
    · rw [deny_permission_of_ok actor notes now hf hst]; simp [hst]
    · rw [deny_permission_of_bad actor notes now hf hst]; simp [hst]
  · intro e he
    cases hf : findRequest m.requests rid with
    | none => rw [deny_permission_of_none actor notes now hf]
    | some req =>
        by_cases hst : req.status = PermissionStatus.PENDING
        · rw [deny_permission_of_ok actor notes now hf hst] at he
          simp at he
        · rw [deny_permission_of_bad actor notes now hf hst]
  · cases hf : findRequest m.requests rid with
    | none => rw [revoke_permission_of_none actor notes now hf]; simp
    | some req =>
        by_cases hst : req.status = PermissionStatus.GRANTED
        · rw [revoke_permission_of_ok actor notes now hf hst]; simp
        · rw [revoke_permission_of_bad actor notes now hf hst]; simp
  · intro req hf
    by_cases hst : req.status = PermissionStatus.GRANTED
    · rw [revoke_permission_of_ok actor notes now hf hst]; simp [hst]
    · rw [revoke_permission_of_bad actor notes now hf hst]; simp [hst]
  · intro e he
    cases hf : findRequest m.requests rid with
    | none => rw [revoke_permission_of_none actor notes now hf]
    | some req =>
        by_cases hst : req.status = PermissionStatus.GRANTED
        · rw [revoke_permission_of_ok actor notes now hf hst] at he
          simp at he
        · rw [revoke_permission_of_bad actor notes now hf hst]

/-- Witness for C1: a missing id makes `grant` fail with the not-found
error, and a second `grant` on an already granted request fails with the
invalid-transition error reporting `GRANTED` while leaving the state
unchanged. -/
theorem transition_errors_iff_witness :
    (grant_permission emptyManager "PR-0-0000" "admin" none 5).1 =
      .error (.notFound "PR-0-0000") ∧
    (grant_permission sampleMgr2 "PR-1-0001" "admin" none 3).1 =
      .error (.invalidTransition "PR-1-0001" PermissionStatus.GRANTED) ∧
    (grant_permission sampleMgr2 "PR-1-0001" "admin" none 3).2 = sampleMgr2 := by
  refine ⟨(transition_errors_iff emptyManager "PR-0-0000" "admin" none 5).1.1.mpr rfl,
    ?_, ?_⟩
  · have h := ((transition_errors_iff sampleMgr2 "PR-1-0001" "admin" none 3).1.2.1
      sampleGrantedReq (by decide)).mpr (by decide)
    exact h
  · exact (transition_errors_iff sampleMgr2 "PR-1-0001" "admin" none 3).1.2.2
      (.invalidTransition "PR-1-0001" PermissionStatus.GRANTED)
      (((transition_errors_iff sampleMgr2 "PR-1-0001" "admin" none 3).1.2.1
        sampleGrantedReq (by decide)).mpr (by decide))

/-- C2: a successful `grant` of a stored `PENDING` request returns and
stores the request with status `GRANTED`, `granted_by` the supplied actor,
`updated_at` the current time (which is ≥ `created_at` assuming the clock
did not go backwards since creation), while `request_id`, `requester`,
`data_source`, `purpose`, `created_at` and every other stored request are
unchanged. -/
theorem grant_success_updates (m : PermissionManager) (rid actor : String)
    (notes : Option String) (now : Nat) (req : PermissionRequest)
    (hf : findRequest m.requests rid = some req)
    (hst : req.status = PermissionStatus.PENDING)
    (hclock : req.created_at ≤ now) :
    (grant_permission m rid actor notes now).1 =
      .ok (grantUpdate req actor notes now) ∧
    findRequest (grant_permission m rid actor notes now).2.requests rid =
      some (grantUpdate req actor notes now) ∧
    (grantUpdate req actor notes now).status = PermissionStatus.GRANTED ∧
    (grantUpdate req actor notes now).granted_by = some actor ∧
    (grantUpdate req actor notes now).updated_at = now ∧
    (grantUpdate req actor notes now).created_at ≤
      (grantUpdate req actor notes now).updated_at ∧
    (grantUpdate req actor notes now).request_id = req.request_id ∧
    (grantUpdate req actor notes now).requester = req.requester ∧
    (grantUpdate req actor notes now).data_source = req.data_source ∧
    (grantUpdate req actor notes now).purpose = req.purpose ∧
    (grantUpdate req actor notes now).created_at = req.created_at ∧
    (∀ rid', rid' ≠ rid →
      findRequest (grant_permission m rid actor notes now).2.requests rid' =
        findRequest m.requests rid') := by
  rw [grant_permission_of_ok actor notes now hf hst]
  refine ⟨rfl, findRequest_insert_self _ _ _, rfl, rfl, rfl, hclock, rfl, rfl,
    rfl, rfl, rfl, ?_⟩
  intro rid' hne
  exact findRequest_insert_ne _ _ hne

/-- Witness for C2: granting the sample pending request at time 2. -/
theorem grant_success_updates_witness :
    (grant_permission sampleMgr1 "PR-1-0001" "admin" none 2).1 =
      .ok (grantUpdate samplePendingReq "admin" none 2) ∧
    (grantUpdate samplePendingReq "admin" none 2).granted_by = some "admin" :=
  ⟨(grant_success_updates sampleMgr1 "PR-1-0001" "admin" none 2 samplePendingReq
      (by decide) (by decide) (by decide)).1,
    (grant_success_updates sampleMgr1 "PR-1-0001" "admin" none 2 samplePendingReq
      (by decide) (by decide) (by decide)).2.2.2.1⟩

/-- C7 counterexample: the claim asserts `created_at` equals `updated_at`
on every create.  But the two fields come from two separate
`default_factory` lambdas, each sampling `datetime.now(timezone.utc)`
independently (the second runs after the first's `isoformat()` call), so
the two microsecond-resolution readings can differ.  With the id-prefix
sample at 1, the `created_at` sample at 1 and the `updated_at` sample one
tick later at 2, the created request has `created_at ≠ updated_at`. -/
theorem create_timestamps_differ :
    (create_request emptyManager "alice" DataSource.CUSTOM "p"
      none 1 1 2).1.status = PermissionStatus.PENDING ∧
    (create_request emptyManager "alice" DataSource.CUSTOM "p"
      none 1 1 2).1.created_at = 1 ∧
    (create_request emptyManager "alice" DataSource.CUSTOM "p"
      none 1 1 2).1.updated_at = 2 ∧
    (create_request emptyManager "alice" DataSource.CUSTOM "p"
        none 1 1 2).1.created_at ≠
      (create_request emptyManager "alice" DataSource.CUSTOM "p"
        none 1 1 2).1.updated_at :=
  ⟨rfl, rfl, rfl, by decide⟩

/-- C7 as amended: `create` always returns a request whose status is
`PENDING` and whose `created_at` and `updated_at` are the two clock samples
taken, in that order, at creation time; under a monotone clock
`created_at ≤ updated_at`, with equality exactly when the two samples read
the same timestamp. -/
theorem create_yields_pending (m : PermissionManager) (requester : String)
    (ds : DataSource) (purpose : String) (notes : Option String)
    (now_id now_created now_updated : Nat) :
    (create_request m requester ds purpose notes
      now_id now_created now_updated).1.status = PermissionStatus.PENDING ∧
    (create_request m requester ds purpose notes
      now_id now_created now_updated).1.created_at = now_created ∧
    (create_request m requester ds purpose notes
      now_id now_created now_updated).1.updated_at = now_updated ∧
    (now_created ≤ now_updated →
      (create_request m requester ds purpose notes
        now_id now_created now_updated).1.created_at ≤
        (create_request m requester ds purpose notes
          now_id now_created now_updated).1.updated_at) ∧
    ((create_request m requester ds purpose notes
        now_id now_created now_updated).1.created_at =
        (create_request m requester ds purpose notes
          now_id now_created now_updated).1.updated_at ↔
      now_created = now_updated) :=
  ⟨rfl, rfl, rfl, fun h => h, Iff.rfl⟩

/-- Witness for C7 (amended): when the two clock samples coincide (both
read 3), the created request is `PENDING` with equal timestamps. -/
theorem create_yields_pending_witness :
    (create_request emptyManager "bob" DataSource.CUSTOM "q"
      none 3 3 3).1.status = PermissionStatus.PENDING ∧
    (create_request emptyManager "bob" DataSource.CUSTOM "q"
        none 3 3 3).1.created_at =
      (create_request emptyManager "bob" DataSource.CUSTOM "q"
        none 3 3 3).1.updated_at :=
  ⟨(create_yields_pending emptyManager "bob" DataSource.CUSTOM "q" none 3 3 3).1,
    ((create_yields_pending emptyManager "bob" DataSource.CUSTOM "q"
      none 3 3 3).2.2.2.2).mpr rfl⟩

/-- Serialization inverts: `from_dict` of `to_dict` is the identity. -/
theorem from_dict_to_dict (r : PermissionRequest) :
    PermissionRequest.from_dict r.to_dict = some r := by
  obtain ⟨rid, rq, ds, p, st, ca, ua, gb, n⟩ := r
  cases ds <;> cases st <;> rfl

/-- Parsing the serialized full state recovers it exactly. -/
theorem parseEntries_saveEntries (rs : List (String × PermissionRequest)) :
    parseEntries (saveEntries rs) = .ok rs := by
  induction rs with
  | nil => rfl
  | cons kv rest ih =>
      obtain ⟨k, r⟩ := kv
      show parseEntries ((k, StoredEntry.wellKeyed r.to_dict) :: saveEntries rest) =
        .ok ((k, r) :: rest)
      rw [parseEntries]
      simp [parseEntry, from_dict_to_dict r, ih]

/-- Constructing a manager over a store written by `_save` succeeds and
reloads exactly the saved requests. -/
theorem mkManager_savedStore (rs : List (String × PermissionRequest)) :
    mkManager (savedStore rs) = .ok { requests := rs, store := savedStore rs } := by
  unfold mkManager managerLoad savedStore
  simp [parseEntries_saveEntries rs]

/-- C5: persistence round-trips.  `from_dict ∘ to_dict` is the identity on
requests; constructing a fresh registry against the store written from any
registry state succeeds and reproduces the same requests map, hence
identical `list()` output in the same (insertion) order. -/
theorem store_roundtrip (m : PermissionManager) :
    (∀ r : PermissionRequest, PermissionRequest.from_dict r.to_dict = some r) ∧
    mkManager (savedStore m.requests) =
      .ok { requests := m.requests, store := savedStore m.requests } ∧
    list_requests { requests := m.requests, store := savedStore m.requests }
        none none none =
      list_requests m none none none :=
  ⟨from_dict_to_dict, mkManager_savedStore m.requests, rfl⟩

/-- C8 (refuting theorem): how construction reacts to each class of corrupt
store.  A store whose JSON is unparsable, or whose entries lack the
`data_source`/`status` keys or carry unknown enum values, is indeed dropped
with a logged warning (the registry starts empty, the corrupt file left in
place).  But a store holding valid JSON whose top level is not an object
makes `data.items()` raise `AttributeError`, and an entry that is not an
object with exactly the dataclass's keys makes subscripting or
`cls(**data)` raise `TypeError`; neither is in the `except` clause of
`_load`, so construction fails — contradicting the claim that corruption is
never surfaced to the caller. -/
theorem corrupt_store_constructor_crashes :
    mkManager (some .notObject) = .error .uncaught ∧
    mkManager (some (.parsed [("x", .badShape)])) = .error .uncaught ∧
    mkManager (some .malformed) =
      .ok { requests := [], store := some .malformed } ∧
    mkManager (some (.parsed [("x", .missingEnumKey)])) =
      .ok { requests := [], store := some (.parsed [("x", .missingEnumKey)]) } :=
  ⟨rfl, rfl, rfl, rfl⟩

/-! ## Claim C3: `has_permission` around grant and revoke -/

/-- Two requests by "alice" for the same source, created at time 1. -/
def c3m2 : PermissionManager :=
  (create_request sampleMgr1 "alice" DataSource.WORLD_BANK_API "p2" none 1 1 1).2

/-- `c3m2` after granting the first request. -/
def c3m3 : PermissionManager :=
  (grant_permission c3m2 "PR-1-0001" "admin" none 2).2

/-- `c3m3` after granting the second request. -/
def c3m4 : PermissionManager :=
  (grant_permission c3m3 "PR-1-0002" "admin" none 2).2

/-- `c3m4` after revoking the second request. -/
def c3m5 : PermissionManager :=
  (revoke_permission c3m4 "PR-1-0002" "sec" none 3).2

/-- The second request of `c3m4`, granted. -/
def c3grantedReq2 : PermissionRequest :=
  { request_id := "PR-1-0002"
    requester := "alice"
    data_source := DataSource.WORLD_BANK_API
    purpose := "p2"
    status := PermissionStatus.GRANTED
    created_at := 1
    updated_at := 2
    granted_by := some "admin"
    notes := none }

/-- The second request of `c3m5`, revoked. -/
def c3revokedReq2 : PermissionRequest :=
  { c3grantedReq2 with
    status := PermissionStatus.REVOKED
    updated_at := 3
    granted_by := some "sec" }

/-- C3 counterexample: the claim asserts `has_permission` is false
immediately after a successful revoke of the granted request, for every
registry state.  In the state `c3m4`, where "alice" holds two granted
requests for the same source, revoking request `PR-1-0002` succeeds yet
`has_permission` remains true, because the other granted request
`PR-1-0001` still matches. -/
theorem hasperm_after_revoke_counterexample :
    (grant_permission c3m3 "PR-1-0002" "admin" none 2).1 = .ok c3grantedReq2 ∧
    (revoke_permission c3m4 "PR-1-0002" "sec" none 3).1 = .ok c3revokedReq2 ∧
    has_permission c3m5 "alice" DataSource.WORLD_BANK_API = true :=
  ⟨rfl, rfl, rfl⟩

/-- C3 as amended: after a successful `grant` of a stored `PENDING` request
`req`, `has_permission` for its requester and source is true; and after a
subsequent successful `revoke` of that same request it is false, provided
no other stored request for the same requester and source was `GRANTED`
(the Python dict's keys are duplicate-free, which the `Nodup` hypothesis
encodes). -/
theorem hasperm_grant_revoke (m : PermissionManager) (rid actor1 actor2 : String)
    (notes1 notes2 : Option String) (now1 now2 : Nat) (req : PermissionRequest)
    (hnd : (m.requests.map Prod.fst).Nodup)
    (hf : findRequest m.requests rid = some req)
    (hst : req.status = PermissionStatus.PENDING)
    (hother : ∀ kv ∈ m.requests, ¬(kv.2.requester = req.requester ∧
      kv.2.data_source = req.data_source ∧
      kv.2.status = PermissionStatus.GRANTED)) :
    has_permission (grant_permission m rid actor1 notes1 now1).2
      req.requester req.data_source = true ∧
    has_permission (revoke_permission (grant_permission m rid actor1 notes1 now1).2
        rid actor2 notes2 now2).2 req.requester req.data_source = false := by
  rw [grant_permission_of_ok actor1 notes1 now1 hf hst]
  constructor
  · unfold has_permission
    apply List.any_eq_true.mpr
    exact ⟨(rid, grantUpdate req actor1 notes1 now1),
      insertRequest_self_mem _ _ _, by simp [grantUpdate]⟩
  · rw [revoke_permission_of_ok actor2 notes2 now2
      (findRequest_insert_self m.requests rid (grantUpdate req actor1 notes1 now1))
      rfl]
    unfold has_permission
    apply List.any_eq_false.mpr
    intro kv hkv
    obtain ⟨k, v⟩ := kv
    have hkeys1 :
        (insertRequest m.requests rid
          (grantUpdate req actor1 notes1 now1)).map Prod.fst =
          m.requests.map Prod.fst :=
      keys_insertRequest_of_found hf _
    have hf1 := findRequest_insert_self m.requests rid
      (grantUpdate req actor1 notes1 now1)
    have hkeys2 :
        (insertRequest
          (insertRequest m.requests rid (grantUpdate req actor1 notes1 now1)) rid
          (revokeUpdate (grantUpdate req actor1 notes1 now1) actor2 notes2
            now2)).map Prod.fst =
          m.requests.map Prod.fst :=
      (keys_insertRequest_of_found hf1 _).trans hkeys1
    have hnd2 :
        ((insertRequest
          (insertRequest m.requests rid (grantUpdate req actor1 notes1 now1)) rid
          (revokeUpdate (grantUpdate req actor1 notes1 now1) actor2 notes2
            now2)).map Prod.fst).Nodup := by
      rw [hkeys2]
      exact hnd
    have hfind := findRequest_of_mem_nodup hnd2 hkv
    simp only [decide_eq_true_eq]
    by_cases hk : k = rid
    · subst hk
      rw [findRequest_insert_self] at hfind
      injection hfind with hv
      rw [← hv]
      simp [revokeUpdate, grantUpdate]
    · rw [findRequest_insert_ne _ _ hk, findRequest_insert_ne _ _ hk] at hfind
      have hmem := mem_of_findRequest hfind
      have hno := hother (k, v) hmem
      simpa using hno

/-- Witness for C3 (amended): single request for "alice"; grant makes
`has_permission` true, revoke makes it false. -/
theorem hasperm_grant_revoke_witness :
    has_permission (grant_permission sampleMgr1 "PR-1-0001" "admin" none 2).2
      "alice" DataSource.WORLD_BANK_API = true ∧
    has_permission (revoke_permission
        (grant_permission sampleMgr1 "PR-1-0001" "admin" none 2).2
        "PR-1-0001" "sec" none 3).2 "alice" DataSource.WORLD_BANK_API = false :=
  hasperm_grant_revoke sampleMgr1 "PR-1-0001" "admin" "sec" none none 2 3
    samplePendingReq (by decide) (by decide) (by decide) (by decide)

/-! ## Claim C4: uniqueness of generated request ids -/

/-- C4 counterexample: with `clear_all` in the sequence the claim fails.
Two creates at the same clock reading (the second-resolution timestamp)
separated by a `clear_all` return the same id `PR-7-0001`, which had
previously been stored in the registry. -/
theorem create_id_reuse_after_clear :
    traceIds emptyManager [Op.create "a" DataSource.CUSTOM "p" none 7 7 7,
      Op.clearAll, Op.create "b" DataSource.CUSTOM "q" none 7 7 7] =
      ["PR-7-0001", "PR-7-0001"] ∧
    "PR-7-0001" ∈
      (applyOps emptyManager
        [Op.create "a" DataSource.CUSTOM "p" none 7 7 7]).requests.map Prod.fst :=
  ⟨rfl, by decide⟩

/-- C4 as amended: (1) along any `clear_all`-free operation sequence from
an empty registry, the ids returned by `create` are pairwise distinct (so
each is distinct from every currently or previously stored identifier);
(2) with `clear_all` allowed, every reachable state still yields a fresh
id distinct from every currently stored identifier. -/
theorem create_ids_unique :
    (∀ ops : List Op, (∀ op ∈ ops, op.isClear = false) →
      (traceIds emptyManager ops).Nodup) ∧
    (∀ m : PermissionManager, Reachable m →
      ∀ (requester : String) (ds : DataSource) (purpose : String)
        (notes : Option String) (now_id now_created now_updated : Nat),
        (create_request m requester ds purpose notes
          now_id now_created now_updated).1.request_id ∉
          m.requests.map Prod.fst) := by
  constructor
  · intro ops hcl
    have h := traceIds_nodup_aux ops emptyManager [] hcl
      (fun kv hkv => absurd hkv (List.not_mem_nil kv))
      (fun id hid => absurd hid (List.not_mem_nil id)) List.nodup_nil
    simpa using h
  · intro m hreach requester ds purpose notes now_id now_created now_updated hmem
    obtain ⟨kv, hkv, hid⟩ := List.mem_map.mp hmem
    have hnone := goodIds_fresh (reachable_goodIds hreach) now_id
    rw [findRequest_eq_none_iff] at hnone
    exact hnone kv hkv hid

/-- Witness for C4 (amended): two same-second creates followed by a grant
produce distinct ids. -/
theorem create_ids_unique_witness :
    (traceIds emptyManager [Op.create "a" DataSource.CUSTOM "p" none 1 1 1,
      Op.create "b" DataSource.CUSTOM "q" none 1 1 1,
      Op.grant "PR-1-0001" "admin" none 2]).Nodup :=
  create_ids_unique.1 _ (by decide)

/-! ## Claim C6: `DENIED` and `REVOKED` are terminal -/

/-- C6: in every reachable registry state, a stored request whose status is
`DENIED` or `REVOKED` is never changed again by any sequence of `create`,
`grant`, `deny` and `revoke` operations: it stays stored under its id with
all fields intact (in particular there is no path from `DENIED` to
`GRANTED`). -/
theorem terminal_states_final (m : PermissionManager) (rid : String)
    (req : PermissionRequest) (hreach : Reachable m)
    (hf : findRequest m.requests rid = some req)
    (ht : req.status = PermissionStatus.DENIED ∨
      req.status = PermissionStatus.REVOKED)
    (ops : List Op) (hcl : ∀ op ∈ ops, op.isClear = false) :
    findRequest (applyOps m ops).requests rid = some req :=
  terminal_preserved_applyOps (reachable_goodIds hreach) hf ht ops hcl

/-- The operation trace leading to the C6 witness state: one request,
denied. -/
def c6ops : List Op :=
  [Op.create "bob" DataSource.CUSTOM "x" none 1 1 1,
   Op.deny "PR-1-0001" "admin" none 2]

/-- The C6 witness state. -/
def c6m : PermissionManager := applyOps emptyManager c6ops

/-- The denied request stored in `c6m`. -/
def c6req : PermissionRequest :=
  { request_id := "PR-1-0001"
    requester := "bob"
    data_source := DataSource.CUSTOM
    purpose := "x"
    status := PermissionStatus.DENIED
    created_at := 1
    updated_at := 2
    granted_by := some "admin"
    notes := none }

/-- Witness for C6: attempts to grant and revoke the denied request, and an
unrelated create, leave it untouched. -/
theorem terminal_states_final_witness :
    findRequest (applyOps c6m
      [Op.grant "PR-1-0001" "eve" none 3,
       Op.create "carol" DataSource.CUSTOM "y" none 3 3 3,
       Op.revoke "PR-1-0001" "eve" none 4]).requests "PR-1-0001" = some c6req :=
  terminal_states_final c6m "PR-1-0001" c6req ⟨c6ops, rfl⟩ (by decide)
    (Or.inl (by decide)) _ (by decide)

/-! ## Claim C9: notes handling on transitions -/

/-- One request created at time 1 with notes `"old"`. -/
def c9m1 : PermissionManager :=
  (create_request emptyManager "alice" DataSource.CUSTOM "p" (some "old")
    1 1 1).2

/-- The pending request stored in `c9m1`. -/
def c9pendingReq : PermissionRequest :=
  { request_id := "PR-1-0001"
    requester := "alice"
    data_source := DataSource.CUSTOM
    purpose := "p"
    status := PermissionStatus.PENDING
    created_at := 1
    updated_at := 1
    granted_by := none
    notes := some "old" }

/-- The request of `c9m1` after a grant that supplied the empty string as
notes: the old notes survive. -/
def c9grantedReq : PermissionRequest :=
  { c9pendingReq with
    status := PermissionStatus.GRANTED
    updated_at := 2
    granted_by := some "admin" }

/-- C9 counterexample: the claim says the notes field is replaced iff a new
value is supplied.  Supplying the empty string (`notes=""`, a supplied
value, but falsy in Python's `if notes:`) to a successful grant leaves the
previously stored notes `"old"` in place instead of replacing them. -/
theorem empty_notes_not_applied :
    (grant_permission c9m1 "PR-1-0001" "admin" (some "") 2).1 =
      .ok c9grantedReq ∧
    c9grantedReq.notes = some "old" ∧ (some "old" : Option String) ≠ some "" :=
  ⟨rfl, rfl, by decide⟩

/-- C9 as amended: on every successful `grant`, `deny` or `revoke`, the
stored notes become `applyNotes old supplied`: replaced iff a non-empty
value is supplied (`None` and `""` both preserve the old notes). -/
theorem transition_notes_update (m : PermissionManager) (rid actor : String)
    (notes : Option String) (now : Nat) (req : PermissionRequest)
    (hf : findRequest m.requests rid = some req) :
    (req.status = PermissionStatus.PENDING →
      (grant_permission m rid actor notes now).1 =
        .ok (grantUpdate req actor notes now) ∧
      (deny_permission m rid actor notes now).1 =
        .ok (denyUpdate req actor notes now) ∧
      (grantUpdate req actor notes now).notes = applyNotes req.notes notes ∧
      (denyUpdate req actor notes now).notes = applyNotes req.notes notes) ∧
    (req.status = PermissionStatus.GRANTED →
      (revoke_permission m rid actor notes now).1 =
        .ok (revokeUpdate req actor notes now) ∧
      (revokeUpdate req actor notes now).notes = applyNotes req.notes notes) ∧
    applyNotes req.notes none = req.notes ∧
    applyNotes req.notes (some "") = req.notes ∧
    (∀ s : String, s ≠ "" → applyNotes req.notes (some s) = some s) := by
  refine ⟨?_, ?_, rfl, ?_, ?_⟩
  · intro hst
    exact ⟨by rw [grant_permission_of_ok actor notes now hf hst],
      by rw [deny_permission_of_ok actor notes now hf hst], rfl, rfl⟩
  · intro hst
    exact ⟨by rw [revoke_permission_of_ok actor notes now hf hst], rfl⟩
  · simp [applyNotes]
  · intro s hs
    simp [applyNotes, hs]

/-- Witness for C9 (amended): empty-string notes preserve `"old"`, while a
non-empty value replaces them on a successful grant. -/
theorem transition_notes_update_witness :
    applyNotes c9pendingReq.notes (some "") = c9pendingReq.notes ∧
    (grant_permission c9m1 "PR-1-0001" "admin" (some "x") 2).1 =
      .ok (grantUpdate c9pendingReq "admin" (some "x") 2) :=
  ⟨(transition_notes_update c9m1 "PR-1-0001" "admin" (some "") 2 c9pendingReq
      (by decide)).2.2.2.1,
    ((transition_notes_update c9m1 "PR-1-0001" "admin" (some "x") 2 c9pendingReq
      (by decide)).1 (by decide)).1⟩

/-! ## Claim C10: `granted_by` is `none` exactly on pending requests -/

/-- C10: in every registry state reachable from empty by operation
sequences, a stored request has `granted_by = none` iff its status is
`PENDING`; every `GRANTED`, `DENIED` or `REVOKED` request carries the last
actor. -/
theorem granted_by_iff_pending (m : PermissionManager) (hreach : Reachable m) :
    ∀ kv ∈ m.requests,
      (kv.2.granted_by = none ↔ kv.2.status = PermissionStatus.PENDING) := by
  obtain ⟨ops, rfl⟩ := hreach
  exact actorInv_applyOps (fun kv hkv => absurd hkv (List.not_mem_nil kv)) ops

/-- The operation trace leading to the C10 witness state. -/
def c10ops : List Op :=
  [Op.create "alice" DataSource.WORLD_BANK_API "research" none 1 1 1,
   Op.grant "PR-1-0001" "admin" none 2]

/-- The C10 witness state: one request, granted. -/
def c10m : PermissionManager := applyOps emptyManager c10ops

/-- Witness for C10: the granted request of `c10m` carries an actor and is
not pending. -/
theorem granted_by_iff_pending_witness :
    (sampleGrantedReq.granted_by = none ↔
      sampleGrantedReq.status = PermissionStatus.PENDING) :=
  granted_by_iff_pending c10m ⟨c10ops, rfl⟩ ("PR-1-0001", sampleGrantedReq)
    (by decide)
